import Mathlib

/-!
Shallow embedding of the resumable onboarding orchestrator of
`src/amazon_connect_mcp/tools/wizard.py`: the functions
`wizard_generate_faq_files`, `wizard_execute_onboarding`,
`wizard_update_onboarding_state` and the helper `_build_hours_config`,
together with the per-brand JSON state file they read and write.

Modelling conventions:
  * A Python `dict` that is used as a string-keyed map (`state["resources"]`,
    the file system) is an association list; assignment keeps the position of
    an existing key and appends a new key at the end, exactly as a Python
    dict does.
  * The state file holds `json.dumps(state)`; serialisation is modelled away
    by storing the parsed `OnboardingState` directly, so the file system is
    an association list from (Path-normalised) path strings to states.  The
    plain-text FAQ files written by `wizard_generate_faq_files` are returned
    as an explicit list of `(path, contents)` writes.
  * `datetime.utcnow().isoformat() + "Z"` is an opaque clock input `now`.
  * Python truthiness of an optional string (`if error:`) is `strTruthy`:
    `None` and `""` are falsy.  Truthiness of the `hours_config` dict is
    modelled on its two recognised keys (`timezone`, `schedule`).
  * Python `int(...)` raising on malformed input is modelled by `Option`;
    `wizard_execute_onboarding` therefore returns `none` when
    `_build_hours_config` would raise `ValueError`.
-/

/-- Association-list lookup, the semantics of `d.get(k)` on a Python dict
with string keys. -/
def alGet {α : Type} (m : List (String × α)) (k : String) : Option α :=
  match m with
  | [] => none
  | (k', v) :: rest => if k' = k then some v else alGet rest k

/-- Association-list update, the semantics of `d[k] = v` on a Python dict:
an existing key keeps its position, a new key is appended at the end. -/
def alSet {α : Type} (m : List (String × α)) (k : String) (v : α) :
    List (String × α) :=
  match m with
  | [] => [(k, v)]
  | (k', v') :: rest =>
    if k' = k then (k, v) :: rest else (k', v') :: alSet rest k v

theorem alGet_alSet_self {α : Type} (m : List (String × α)) (k : String)
    (v : α) : alGet (alSet m k v) k = some v := by
  induction m with
  | nil => simp [alGet, alSet]
  | cons p rest ih =>
    obtain ⟨k', v'⟩ := p
    by_cases h : k' = k
    · simp [alGet, alSet, h]
    · simp [alGet, alSet, h, ih]

theorem alGet_alSet_ne {α : Type} (m : List (String × α)) (k k' : String)
    (v : α) (h : k' ≠ k) : alGet (alSet m k v) k' = alGet m k' := by
  have h' : ¬(k = k') := Ne.symm h
  induction m with
  | nil => simp [alGet, alSet, h']
  | cons p rest ih =>
    obtain ⟨k'', v''⟩ := p
    by_cases hk : k'' = k
    · subst hk
      simp [alGet, alSet, h']
    · simp only [alSet, if_neg hk, alGet]
      by_cases hk' : k'' = k'
      · simp [hk']
      · simp [hk', ih]

/-- The `{step, message}` object stored in the state's `error` field. -/
structure ErrorInfo where
  step : Int
  message : String
deriving Repr, DecidableEq

/-- One entry of `hours_config["schedule"]`; every key is optional because
the Python code reads each with `item.get(...)` and a default.  The JSON key
`"end"` is a Lean keyword and is embedded as `stop`. -/
structure SchedItem where
  day : Option String := none
  start : Option String := none
  stop : Option String := none
deriving Repr, DecidableEq

/-- The `hours_config` dict argument.  The two keys the source reads are
modelled as optional fields; Python dict truthiness (non-emptiness) is
`hcTruthy` below. -/
structure HoursConfig where
  timezone : Option String := none
  schedule : Option (List SchedItem) := none
deriving Repr, DecidableEq

/-- The per-brand onboarding state JSON document.  Fields that some writers
of the file omit are `Option`; the fields every writer sets are plain. -/
structure OnboardingState where
  brand : String
  started_at : String
  updated_at : String
  region : Option String := none
  industry : Option String := none
  current_phase : Int
  current_step : Int
  completed_steps : List Int
  resources : List (String × String)
  error : Option ErrorInfo
  hours_config : Option HoursConfig := none
  templates : Option String := none
  faq_directory : Option String := none
  faq_count : Option Nat := none
deriving Repr, DecidableEq

/-- The local file system restricted to the state files: a map from
Path-normalised path strings to the parsed state documents. -/
abbrev FS : Type := List (String × OnboardingState)

/-- Path of the brand's state file,
`str(Path(f"./{brand}") / f"{brand}_onboarding_state.json")`: `pathlib`
normalises the leading `./` away, so both the updater (which builds the
path in one piece) and the other two tools (which build it from `base_dir`)
address the same file. -/
def statePath (brand : String) : String :=
  brand ++ "/" ++ brand ++ "_onboarding_state.json"

/-- Python truthiness of a `str | None` value: `None` and `""` are falsy. -/
def strTruthy : Option String → Bool
  | none => false
  | some s => !s.isEmpty

/-- Python truthiness of the optional `hours_config` dict: `None` and the
empty dict are falsy; a dict with at least one of the recognised keys is
truthy. -/
def hcTruthy : Option HoursConfig → Bool
  | none => false
  | some hc => hc.timezone.isSome || hc.schedule.isSome

/-- The dictionary returned by `wizard_update_onboarding_state` on success.
`resource_saved` is `{resource_key: resource_value}` when `resource_key` is
truthy, else `None`. -/
structure UpdateRet where
  brand : String
  step_completed : Int
  resource_saved : Option (String × Option String)
  total_completed : Nat
  state : OnboardingState
deriving Repr, DecidableEq

/-- Outcome of `wizard_update_onboarding_state`: either the early
`{"error": ...}` dictionary (no exception is raised) or the success
dictionary. -/
inductive UpdateOutcome where
  | errorResult (message : String)
  | ok (ret : UpdateRet)
deriving Repr, DecidableEq

/-- The `if error:` branch of the updater followed by the unconditional
`state["updated_at"]` refresh: record `{step, message}` and touch nothing
else. -/
def errorUpdate (st : OnboardingState) (step : Int) (msg : String)
    (now : String) : OnboardingState :=
  { st with error := some ⟨step, msg⟩, updated_at := now }

/-- The `else` branch of the updater followed by the unconditional
`state["updated_at"]` refresh: append `step` to `completed_steps` unless
already present, record the resource pair when both key and value are
truthy, set `current_step`, clear `error`. -/
def successUpdate (st : OnboardingState) (step : Int)
    (resource_key resource_value : Option String) (now : String) :
    OnboardingState :=
  { st with
    completed_steps :=
      if st.completed_steps.contains step then st.completed_steps
      else st.completed_steps ++ [step]
    resources :=
      if strTruthy resource_key && strTruthy resource_value then
        alSet st.resources (resource_key.getD "") (resource_value.getD "")
      else st.resources
    current_step := step
    error := none
    updated_at := now }

/-- The updater `wizard_update_onboarding_state(brand, step, resource_key,
resource_value, error)` acting on the file system `fs` with clock `now`.
Returns the file system after the call together with the returned value. -/
def wizard_update_onboarding_state (brand : String) (step : Int)
    (resource_key resource_value error : Option String) (now : String)
    (fs : FS) : FS × UpdateOutcome :=
  let state_file := statePath brand
  match alGet fs state_file with
  | none =>
    (fs, .errorResult ("State file not found: " ++ state_file))
  | some st =>
    let st2 :=
      if strTruthy error then errorUpdate st step (error.getD "") now
      else successUpdate st step resource_key resource_value now
    (alSet fs state_file st2,
     .ok
       { brand := brand
         step_completed := step
         resource_saved :=
           if strTruthy resource_key then
             some (resource_key.getD "", resource_value)
           else none
         total_completed := st2.completed_steps.length
         state := st2 })

/-- One element of the `faqs` argument of `wizard_generate_faq_files`: a
dict whose three fields are each read with `faq.get(...)` and a default. -/
structure Faq where
  title : Option String := none
  summary : Option String := none
  content : Option String := none
deriving Repr, DecidableEq

/-- A character kept by the slug regex `[^a-z0-9]+`: a lowercase ASCII
letter or a digit. -/
def isSlugChar (c : Char) : Bool :=
  ('a' ≤ c && c ≤ 'z') || ('0' ≤ c && c ≤ '9')

/-- Worker for `collapseNonSlug`; the flag records whether the previous
character belonged to a non-slug run whose single replacement dash has
already been emitted. -/
def collapseAux : Bool → List Char → List Char
  | _, [] => []
  | inRun, c :: rest =>
    if isSlugChar c then c :: collapseAux false rest
    else if inRun then collapseAux true rest
    else '-' :: collapseAux true rest

/-- The substitution `re.sub(r"[^a-z0-9]+", "-", s)` on the character
list of `s`: every
maximal run of non-slug characters is replaced by a single dash. -/
def collapseNonSlug (l : List Char) : List Char :=
  collapseAux false l

/-- Python `s.strip("-")`: drop leading and trailing dashes. -/
def stripDash (l : List Char) : List Char :=
  ((l.dropWhile (fun c => c == '-')).reverse.dropWhile
      (fun c => c == '-')).reverse

/-- The slug `re.sub(r"[^a-z0-9]+", "-", title.lower()).strip("-")[:50]`, the
slugified file-name stem; `.lower()` is applied per character. -/
def slugify50 (title : String) : String :=
  String.mk
    ((stripDash (collapseNonSlug (title.toList.map Char.toLower))).take 50)

/-- Python `f"{i:02d}"` for a non-negative index. -/
def pyPad2 (n : Nat) : String :=
  if n < 10 then "0" ++ toString n else toString n

/-- The fixed textual layout of one FAQ file. -/
def faqBody (title summary content : String) : String :=
  "Title: " ++ title ++ "\n\nSummary: " ++ summary ++ "\n\nContent:\n" ++
    content ++ "\n"

/-- The `for i, faq in enumerate(faqs, 1)` loop of
`wizard_generate_faq_files`: the `(path, contents)` text-file writes, with
`i` the 1-based index of the first element of the remaining list. -/
def buildFaqFiles (brand : String) (i : Nat) : List Faq → List (String × String)
  | [] => []
  | faq :: rest =>
    let title := faq.title.getD ("Question " ++ toString i)
    let summary := faq.summary.getD ""
    let content := faq.content.getD ""
    let filename := pyPad2 i ++ "-" ++ slugify50 title ++ ".txt"
    (brand ++ "/faq/" ++ filename, faqBody title summary content) ::
      buildFaqFiles brand (i + 1) rest

/-- Result of `wizard_generate_faq_files`: the file system after the call,
the plain-text FAQ file writes, and the returned dictionary (its fields
other than `files_created` are the informational strings of the source). -/
structure GenResult where
  fs : FS
  faqWrites : List (String × String)
  state : OnboardingState
  files_created : List String
  faq_directory : String
  state_file : String
deriving Repr, DecidableEq

/-- The materializer `wizard_generate_faq_files(brand, faqs)` with clock
`now` on file
system `fs`.  It writes the FAQ text files and then unconditionally
initialises a fresh state document at the brand's state path. -/
def wizard_generate_faq_files (brand : String) (faqs : List Faq)
    (now : String) (fs : FS) : GenResult :=
  let faq_dir := brand ++ "/faq"
  let created := buildFaqFiles brand 1 faqs
  let state : OnboardingState :=
    { brand := brand
      started_at := now
      updated_at := now
      current_phase := 0
      current_step := 0
      completed_steps := []
      resources := []
      error := none
      faq_directory := some faq_dir
      faq_count := some created.length }
  { fs := alSet fs (statePath brand) state
    faqWrites := created
    state := state
    files_created := created.map Prod.fst
    faq_directory := faq_dir
    state_file := statePath brand }

/-- An `{"Hours": h, "Minutes": m}` object inside an hours-of-operation
entry. -/
structure TimeHM where
  hours : Int
  minutes : Int
deriving Repr, DecidableEq

/-- One `{"Day": ..., "StartTime": ..., "EndTime": ...}` entry produced by
`_build_hours_config`. -/
structure DayCfg where
  day : String
  startTime : TimeHM
  endTime : TimeHM
deriving Repr, DecidableEq

/-- Parse one `"HH:MM"`-style time the way `_build_hours_config` does:
split on `":"`, `int(parts[0])` for the hours, `int(parts[1])` if a second
part exists else `0`.  `none` models `int` raising `ValueError`. -/
def parseHM (s : String) : Option TimeHM :=
  match s.splitOn ":" with
  | [] => none
  | h :: rest =>
    match h.toInt?, rest with
    | none, _ => none
    | some hh, [] => some ⟨hh, 0⟩
    | some hh, m :: _ =>
      match m.toInt? with
      | none => none
      | some mm => some ⟨hh, mm⟩

/-- The default Mon-Fri 09:00-17:00 week of `_build_hours_config`. -/
def defaultWeek : List DayCfg :=
  ["MONDAY", "TUESDAY", "WEDNESDAY", "THURSDAY", "FRIDAY"].map
    (fun day => ⟨day, ⟨9, 0⟩, ⟨17, 0⟩⟩)

/-- The helper `_build_hours_config(hours_config)`.  The guard
`if not hours_config or "schedule" not in hours_config` falls back to the
default week both for a falsy dict and for a dict without a `"schedule"`
key; otherwise each schedule item is converted, `none` modelling the
`ValueError` that `int` raises on a malformed time. -/
def _build_hours_config : Option HoursConfig → Option (List DayCfg)
  | none => some defaultWeek
  | some hc =>
    match hc.schedule with
    | none => some defaultWeek
    | some sched =>
      sched.mapM (fun item => do
        let st ← parseHM (item.start.getD "09:00")
        let en ← parseHM (item.stop.getD "17:00")
        pure (⟨(item.day.getD "MONDAY").toUpper, st, en⟩ : DayCfg))

/-- Modelled from the spec: `INDUSTRY_TEMPLATES` is referenced by
`wizard_execute_onboarding` but not defined anywhere under the sources
provided; the spec treats industry-to-template recommendation as an
external collaborator ("recommended template sets", §6), consumed opaquely.
Modelled as an opaque table with the `"general"` key the source falls back
to. -/
def INDUSTRY_TEMPLATES : List (String × String) :=
  [("general", "templates:general"), ("healthcare", "templates:healthcare"),
   ("retail", "templates:retail")]

/-- Lookup `INDUSTRY_TEMPLATES.get(industry, INDUSTRY_TEMPLATES["general"])`. -/
def industryTemplates (industry : String) : String :=
  (alGet INDUSTRY_TEMPLATES industry).getD
    ((alGet INDUSTRY_TEMPLATES "general").getD "templates:general")

/-- A parameter value inside a step descriptor: either a string (possibly a
placeholder) or the hours-of-operation config list of step 4. -/
inductive PVal where
  | s (v : String)
  | cfg (l : List DayCfg)
deriving Repr, DecidableEq

/-- One of the ten step descriptors returned by
`wizard_execute_onboarding`.  Keys a given step's dict does not carry are
`none` / `[]`. -/
structure StepD where
  step : Int
  phase : String
  tool : Option String := none
  action : Option String := none
  params : List (String × PVal) := []
  save_output : Option String := none
  description : Option String := none
  faq_directory : Option String := none
  completed : Bool
deriving Repr, DecidableEq

/-- The dictionary returned by `wizard_execute_onboarding`. -/
structure ExecRet where
  brand : String
  region : String
  industry : String
  state_file : String
  progress : String
  resources : List (String × String)
  steps : List StepD
  next_step : Option StepD
deriving Repr, DecidableEq

/-- The literal ten-step plan list built inside
`wizard_execute_onboarding`, as a function of the values it mentions:
the brand and region arguments, the `hours_config` argument (for step 4's
`time_zone`), the already-built `_build_hours_config` result, and the
`completed_steps` / `resources` read back from the state. -/
def onboardingSteps (brand region : String)
    (hours_config : Option HoursConfig) (hoursCfg : List DayCfg)
    (completed : List Int) (resources : List (String × String)) :
    List StepD :=
  [{ step := 1
     phase := "Instance Creation"
     tool := some "create_instance"
     params := [("instance_alias", .s brand),
                ("identity_management_type", .s "CONNECT_MANAGED"),
                ("region", .s region)]
     save_output := some "instance_id"
     completed := completed.contains 1 },
   { step := 2
     phase := "Wait for Instance"
     action := some "wait"
     description :=
       some "Sleep 60s then check instance status with describe_instance"
     completed := completed.contains 2 },
   { step := 3
     phase := "Set Session"
     tool := some "set_session"
     params := [("instance_id",
                 .s ((alGet resources "instance_id").getD "<from step 1>")),
                ("region", .s region)]
     completed := completed.contains 3 },
   { step := 4
     phase := "Hours of Operation"
     tool := some "config_create_hours_of_operation"
     params := [("name", .s (brand ++ " Hours")),
                ("time_zone",
                 .s (if hcTruthy hours_config then
                       (hours_config.bind HoursConfig.timezone).getD
                         "America/New_York"
                     else "America/New_York")),
                ("config", .cfg hoursCfg)]
     save_output := some "hours_of_operation_id"
     completed := completed.contains 4 },
   { step := 5
     phase := "Queue"
     tool := some "config_create_queue"
     params := [("name", .s (brand ++ " Support")),
                ("hours_of_operation_id",
                 .s ((alGet resources "hours_of_operation_id").getD
                       "<from step 4>"))]
     save_output := some "queue_id"
     completed := completed.contains 5 },
   { step := 6
     phase := "Routing Profile"
     tool := some "config_create_routing_profile"
     params := [("name", .s (brand ++ " Agent")),
                ("default_outbound_queue_id",
                 .s ((alGet resources "queue_id").getD "<from step 5>"))]
     save_output := some "routing_profile_id"
     completed := completed.contains 6 },
   { step := 7
     phase := "Customer Profiles Domain"
     tool := some "profiles_create_domain"
     params := [("domain_name", .s brand)]
     save_output := some "profiles_domain_name"
     completed := completed.contains 7 },
   { step := 8
     phase := "Cases Domain"
     tool := some "cases_create_domain"
     params := [("name", .s brand)]
     save_output := some "cases_domain_id"
     completed := completed.contains 8 },
   { step := 9
     phase := "Cases Template"
     tool := some "cases_create_template"
     params := [("domain_id",
                 .s ((alGet resources "cases_domain_id").getD
                       "<from step 8>")),
                ("name", .s (brand ++ " Support"))]
     save_output := some "cases_template_id"
     completed := completed.contains 9 },
   { step := 10
     phase := "Q in Connect"
     action := some "manual"
     description :=
       some "Enable Amazon Q in Connect via console, then upload FAQ files"
     faq_directory := some (brand ++ "/faq")
     completed := completed.contains 10 }]

/-- The orchestrator `wizard_execute_onboarding(brand, region, industry,
hours_config,
resume)` with clock `now` on file system `fs`.  Returns `none` when
`_build_hours_config` raises (malformed custom schedule); otherwise the
file system after the single `save_state()` call and the returned plan.
(The source saves the state before building the step list, so on a raise
the write has happened; no claim depends on the state left by a raising
call, and the `none` result drops it.) -/
def wizard_execute_onboarding (brand region industry : String)
    (hours_config : Option HoursConfig) (resume : Bool) (now : String)
    (fs : FS) : Option (FS × ExecRet) :=
  let state_file := statePath brand
  let st0 : OnboardingState :=
    match alGet fs state_file, resume with
    | some st, true => st
    | _, _ =>
      { brand := brand
        started_at := now
        updated_at := now
        region := some region
        industry := some industry
        current_phase := 1
        current_step := 0
        completed_steps := []
        resources := []
        error := none }
  let st1 : OnboardingState :=
    { st0 with
      region := some region
      industry := some industry
      hours_config :=
        if hcTruthy hours_config then hours_config else st0.hours_config }
  let st2 : OnboardingState :=
    { st1 with templates := some (industryTemplates industry)
               updated_at := now }
  let fs1 := alSet fs state_file st2
  match _build_hours_config hours_config with
  | none => none
  | some hoursCfg =>
    let steps : List StepD :=
      onboardingSteps brand region hours_config hoursCfg
        st2.completed_steps st2.resources
    let next := steps.find? (fun s => !s.completed)
    some (fs1,
      { brand := brand
        region := region
        industry := industry
        state_file := state_file
        progress :=
          toString st2.completed_steps.length ++ "/" ++
            toString steps.length ++ " steps completed"
        resources := st2.resources
        steps := steps
        next_step := next })


/-! ### Helper lemmas -/

/-- The ten step numbers, in the order the plan lists them. -/
def planNumbers : List Int := [1, 2, 3, 4, 5, 6, 7, 8, 9, 10]

theorem onboardingSteps_map_step (brand region : String)
    (hc : Option HoursConfig) (l : List DayCfg) (c : List Int)
    (res : List (String × String)) :
    (onboardingSteps brand region hc l c res).map StepD.step = planNumbers :=
  rfl

theorem onboardingSteps_completed (brand region : String)
    (hc : Option HoursConfig) (l : List DayCfg) (c : List Int)
    (res : List (String × String)) :
    ∀ s ∈ onboardingSteps brand region hc l c res,
      s.completed = c.contains s.step := by
  intro s hs
  simp only [onboardingSteps, List.mem_cons, List.not_mem_nil, or_false] at hs
  rcases hs with rfl | rfl | rfl | rfl | rfl | rfl | rfl | rfl | rfl | rfl <;>
    rfl

/-- Taking `find?` of the first incomplete step commutes with projecting
the step number, whenever the completion flags are exactly membership of
the step number in `c`. -/
theorem find?_incomplete_map_step (c : List Int) :
    ∀ l : List StepD, (∀ s ∈ l, s.completed = c.contains s.step) →
      (l.find? (fun s => !s.completed)).map StepD.step
        = (l.map StepD.step).find? (fun n => !(c.contains n))
  | [], _ => by simp
  | a :: l, hflag => by
    have ha := hflag a (List.mem_cons_self a l)
    have ih := find?_incomplete_map_step c l
      (fun s hs => hflag s (List.mem_cons_of_mem a hs))
    by_cases hca : c.contains a.step = true
    · simp only [List.map_cons, List.find?_cons, ha, hca, Bool.not_true]
      exact ih
    · have hca' : c.contains a.step = false := by
        cases h : c.contains a.step
        · rfl
        · exact absurd h hca
      simp only [List.map_cons, List.find?_cons, ha, hca', Bool.not_false]
      rfl

/-! ### Sample data used by the witness theorems -/

/-- A state file as it looks mid-onboarding: steps 1-4 done, two resources
recorded. -/
def sampleState : OnboardingState :=
  { brand := "acme"
    started_at := "T0"
    updated_at := "T0"
    current_phase := 1
    current_step := 4
    completed_steps := [1, 2, 3, 4]
    resources := [("instance_id", "i-001"), ("hours_of_operation_id", "h-001")]
    error := none }

/-- A file system holding `sampleState` for brand `acme`. -/
def sampleFS : FS := [(statePath "acme", sampleState)]

/-! ### The claims -/

/-- C1: for every onboarding state, `wizard_execute_onboarding` returns
the full fixed 10-step plan (step numbers 1..10 in order), each step's
`completed` flag is membership of its step number in the persisted
`completed_steps`, and `next_step` is the first step in numeric order
whose flag is false (`none` when all ten are complete) — so it never
selects a later incomplete step ahead of an earlier one. -/
theorem wizard_execute_onboarding_first_incomplete (fs : FS)
    (brand region industry : String) (hc : Option HoursConfig)
    (resume : Bool) (now : String) (fs' : FS) (r : ExecRet)
    (h : wizard_execute_onboarding brand region industry hc resume now fs
      = some (fs', r)) :
    ∃ st', alGet fs' (statePath brand) = some st' ∧
      r.steps.map StepD.step = planNumbers ∧
      (∀ s ∈ r.steps, s.completed = st'.completed_steps.contains s.step) ∧
      r.next_step.map StepD.step
        = planNumbers.find? (fun n => !(st'.completed_steps.contains n)) := by
  cases hb : _build_hours_config hc with
  | none =>
    simp only [wizard_execute_onboarding, hb] at h
    exact Option.noConfusion h
  | some hoursCfg =>
    simp only [wizard_execute_onboarding, hb, Option.some.injEq,
      Prod.mk.injEq] at h
    obtain ⟨hfs, hr⟩ := h
    subst hfs
    subst hr
    refine ⟨_, alGet_alSet_self _ _ _, onboardingSteps_map_step _ _ _ _ _ _,
      ?_, ?_⟩
    · exact onboardingSteps_completed _ _ _ _ _ _
    · rw [show (ExecRet.next_step _) = (onboardingSteps brand region hc
        hoursCfg _ _).find? (fun s => !s.completed) from rfl,
        find?_incomplete_map_step _ _ (onboardingSteps_completed _ _ _ _ _ _),
        onboardingSteps_map_step]

/-- Witness for C1 at a concrete input: with steps 1-4 completed the next
step is 5. -/
theorem wizard_execute_onboarding_first_incomplete_witness :
    ∃ fs' r,
      wizard_execute_onboarding "acme" "us-east-1" "general" none true "T1"
          sampleFS = some (fs', r) ∧
      ∃ st', alGet fs' (statePath "acme") = some st' ∧
        r.steps.map StepD.step = planNumbers ∧
        (∀ s ∈ r.steps, s.completed = st'.completed_steps.contains s.step) ∧
        r.next_step.map StepD.step
          = planNumbers.find?
              (fun n => !(st'.completed_steps.contains n)) ∧
        r.next_step.map StepD.step = some 5 := by
  refine ⟨_, _, rfl, ?_⟩
  obtain ⟨st', h1, h2, h3, h4⟩ :=
    wizard_execute_onboarding_first_incomplete sampleFS "acme" "us-east-1"
      "general" none true "T1" _ _ rfl
  refine ⟨st', h1, h2, h3, h4, ?_⟩
  rfl

/-- C2: on an existing, well-formed state file (`step` recorded at most
once, which holds for every state this system itself writes), two
successive no-error calls of the Progress Updater with the same
`(brand, step)` leave `completed_steps` containing `step` exactly once:
the second call adds no duplicate entry. -/
theorem wizard_update_idempotent_completion (fs : FS) (brand : String)
    (step : Int) (rk1 rv1 rk2 rv2 : Option String) (now1 now2 : String)
    (st : OnboardingState)
    (hload : alGet fs (statePath brand) = some st)
    (hcount : st.completed_steps.count step ≤ 1) :
    ∃ st2,
      alGet (wizard_update_onboarding_state brand step rk2 rv2 none now2
          (wizard_update_onboarding_state brand step rk1 rv1 none now1
            fs).1).1 (statePath brand) = some st2 ∧
      st2.completed_steps.count step = 1 := by
  have hfs1 : (wizard_update_onboarding_state brand step rk1 rv1 none now1
      fs).1 = alSet fs (statePath brand)
        (successUpdate st step rk1 rv1 now1) := by
    simp [wizard_update_onboarding_state, hload, strTruthy]
  have hload1 : alGet ((wizard_update_onboarding_state brand step rk1 rv1
      none now1 fs).1) (statePath brand)
      = some (successUpdate st step rk1 rv1 now1) := by
    rw [hfs1]
    exact alGet_alSet_self _ _ _
  have hfs2 : (wizard_update_onboarding_state brand step rk2 rv2 none now2
      (wizard_update_onboarding_state brand step rk1 rv1 none now1 fs).1).1
      = alSet ((wizard_update_onboarding_state brand step rk1 rv1 none now1
          fs).1) (statePath brand)
        (successUpdate (successUpdate st step rk1 rv1 now1) step rk2 rv2
          now2) := by
    rw [hfs1]
    simp [wizard_update_onboarding_state, alGet_alSet_self, strTruthy]
  refine ⟨_, by rw [hfs2]; exact alGet_alSet_self _ _ _, ?_⟩
  simp only [successUpdate]
  by_cases hm : st.completed_steps.contains step = true
  · have hmem : step ∈ st.completed_steps := List.elem_iff.mp hm
    have hpos : 0 < st.completed_steps.count step :=
      List.count_pos_iff.mpr hmem
    simp only [hm, if_true]
    omega
  · have hnot : step ∉ st.completed_steps :=
      fun hmem => hm (List.elem_iff.mpr hmem)
    have hm' : st.completed_steps.contains step = false := by
      cases h : st.completed_steps.contains step
      · rfl
      · exact absurd h hm
    have hc1 : (st.completed_steps ++ [step]).contains step = true :=
      List.elem_iff.mpr (List.mem_append_right _ (List.mem_singleton.mpr rfl))
    simp only [hm', Bool.false_eq_true, if_false, hc1, if_true,
      List.count_append, List.count_eq_zero.mpr hnot,
      List.count_singleton_self]

/-- Witness for C2 at a concrete input. -/
theorem wizard_update_idempotent_completion_witness :
    alGet sampleFS (statePath "acme") = some sampleState ∧
    sampleState.completed_steps.count 5 ≤ 1 ∧
    ∃ st2,
      alGet (wizard_update_onboarding_state "acme" 5 none none none "T2"
          (wizard_update_onboarding_state "acme" 5 (some "queue_id")
            (some "q-123") none "T1" sampleFS).1).1 (statePath "acme")
        = some st2 ∧
      st2.completed_steps.count 5 = 1 :=
  ⟨rfl, by decide,
    wizard_update_idempotent_completion sampleFS "acme" 5 (some "queue_id")
      (some "q-123") none none "T1" "T2" sampleState rfl (by decide)⟩

/-- The file-system effect of a successful lookup in the updater: the
state file is overwritten with the branch-selected new state. -/
theorem wizard_update_fs_eq (brand : String) (step : Int)
    (rk rv err : Option String) (now : String) (fs : FS)
    (st : OnboardingState) (hload : alGet fs (statePath brand) = some st) :
    (wizard_update_onboarding_state brand step rk rv err now fs).1
      = alSet fs (statePath brand)
          (if strTruthy err then errorUpdate st step (err.getD "") now
           else successUpdate st step rk rv now) := by
  simp only [wizard_update_onboarding_state, hload]

/-- After a successful (no-error) update, the step is in
`completed_steps`. -/
theorem successUpdate_contains (st : OnboardingState) (step : Int)
    (rk rv : Option String) (now : String) :
    (successUpdate st step rk rv now).completed_steps.contains step
      = true := by
  by_cases h : step ∈ st.completed_steps
  · simp [successUpdate, h]
  · simp [successUpdate, h]

/-- C5: when no state file exists for the brand, the Progress Updater
returns the structured `{"error": "State file not found: ..."}` result and
leaves the file system untouched — no state file is created and nothing is
written. -/
theorem wizard_update_state_not_found (brand : String) (step : Int)
    (rk rv err : Option String) (now : String) (fs : FS)
    (hnone : alGet fs (statePath brand) = none) :
    wizard_update_onboarding_state brand step rk rv err now fs
      = (fs, .errorResult ("State file not found: " ++ statePath brand)) := by
  simp [wizard_update_onboarding_state, hnone]

/-- Witness for C5 at a concrete input: the empty file system. -/
theorem wizard_update_state_not_found_witness :
    wizard_update_onboarding_state "acme" 1 none none none "T1" []
      = ([], .errorResult
          ("State file not found: " ++ statePath "acme")) :=
  wizard_update_state_not_found "acme" 1 none none none "T1" [] rfl

/-- C7: the updater never deletes a resource entry: every key present in
`resources` before the call is present after it, and every key other than
the supplied `resource_key` keeps its previous value. -/
theorem wizard_update_preserves_resources (fs : FS) (brand : String)
    (step : Int) (rk rv err : Option String) (now : String)
    (st : OnboardingState) (hload : alGet fs (statePath brand) = some st) :
    ∃ st1,
      alGet (wizard_update_onboarding_state brand step rk rv err now fs).1
        (statePath brand) = some st1 ∧
      (∀ k, (alGet st.resources k).isSome = true →
        (alGet st1.resources k).isSome = true) ∧
      (∀ k, some k ≠ rk → alGet st1.resources k = alGet st.resources k) := by
  rw [wizard_update_fs_eq brand step rk rv err now fs st hload]
  refine ⟨_, alGet_alSet_self _ _ _, ?_, ?_⟩ <;>
    by_cases he : strTruthy err = true
  · simp [he, errorUpdate]
  · simp only [he, Bool.false_eq_true, if_false, successUpdate]
    by_cases hw : (strTruthy rk && strTruthy rv) = true
    · intro k hk
      simp only [hw, if_true]
      by_cases hkk : k = rk.getD ""
      · subst hkk
        rw [alGet_alSet_self]
        rfl
      · rw [alGet_alSet_ne _ _ _ _ hkk]
        exact hk
    · simp only [hw, if_false]
      exact fun k hk => hk
  · simp [he, errorUpdate]
  · simp only [he, Bool.false_eq_true, if_false, successUpdate]
    intro k hk
    by_cases hw : (strTruthy rk && strTruthy rv) = true
    · have hrk : strTruthy rk = true := (Bool.and_eq_true _ _).mp hw |>.1
      obtain ⟨s, rfl⟩ : ∃ s, rk = some s := by
        cases rk with
        | none => exact absurd hrk (by simp [strTruthy])
        | some s => exact ⟨s, rfl⟩
      have hne : k ≠ s := fun hks => hk (by rw [hks])
      simp only [hw, if_true, Option.getD_some]
      exact alGet_alSet_ne _ _ _ _ hne
    · simp [hw]

/-- Witness for C7 at a concrete input. -/
theorem wizard_update_preserves_resources_witness :
    ∃ st1,
      alGet (wizard_update_onboarding_state "acme" 5 (some "queue_id")
          (some "q-123") none "T1" sampleFS).1 (statePath "acme")
        = some st1 ∧
      (∀ k, (alGet sampleState.resources k).isSome = true →
        (alGet st1.resources k).isSome = true) ∧
      (∀ k, some k ≠ some "queue_id" →
        alGet st1.resources k = alGet sampleState.resources k) :=
  wizard_update_preserves_resources sampleFS "acme" 5 (some "queue_id")
    (some "q-123") none "T1" sampleState rfl

/-- C9: an empty `error=""` string is falsy, so the updater takes the success branch: the
whole call (return value and file-system effect) is identical to a call
with `error=None`, the step is added to `completed_steps`, `current_step`
is set, and `error` is cleared — an empty error message is
indistinguishable from a successful update. -/
theorem wizard_update_empty_error_is_success (fs : FS) (brand : String)
    (step : Int) (rk rv : Option String) (now : String)
    (st : OnboardingState) (hload : alGet fs (statePath brand) = some st) :
    wizard_update_onboarding_state brand step rk rv (some "") now fs
      = wizard_update_onboarding_state brand step rk rv none now fs ∧
    ∃ st1,
      alGet (wizard_update_onboarding_state brand step rk rv (some "") now
          fs).1 (statePath brand) = some st1 ∧
      st1.completed_steps.contains step = true ∧
      st1.current_step = step ∧ st1.error = none := by
  constructor
  · cases halo : alGet fs (statePath brand) <;>
      simp [wizard_update_onboarding_state, halo, strTruthy,
        show ("".isEmpty : Bool) = true from rfl]
  · rw [wizard_update_fs_eq brand step rk rv (some "") now fs st hload]
    have hred : (if strTruthy (some "") = true then
        errorUpdate st step ((some "").getD "") now
      else successUpdate st step rk rv now) = successUpdate st step rk rv
        now := rfl
    rw [hred]
    exact ⟨_, alGet_alSet_self _ _ _,
      successUpdate_contains st step rk rv now, rfl, rfl⟩

/-- Witness for C9 at a concrete input. -/
theorem wizard_update_empty_error_is_success_witness :
    wizard_update_onboarding_state "acme" 5 none none (some "") "T1"
        sampleFS
      = wizard_update_onboarding_state "acme" 5 none none none "T1"
          sampleFS ∧
    ∃ st1,
      alGet (wizard_update_onboarding_state "acme" 5 none none (some "")
          "T1" sampleFS).1 (statePath "acme") = some st1 ∧
      st1.completed_steps.contains 5 = true ∧
      st1.current_step = 5 ∧ st1.error = none :=
  wizard_update_empty_error_is_success sampleFS "acme" 5 none none "T1"
    sampleState rfl

/-- A state file after all of steps 1-5 succeeded, used to exhibit the C3
counterexample. -/
def doneState5 : OnboardingState :=
  { brand := "acme"
    started_at := "T0"
    updated_at := "T0"
    current_phase := 1
    current_step := 5
    completed_steps := [1, 2, 3, 4, 5]
    resources := [("queue_id", "q-123")]
    error := none }

/-- A file system holding `doneState5` for brand `acme`. -/
def doneFS5 : FS := [(statePath "acme", doneState5)]

/-- C3 counterexample: on a state where step 5 was previously completed,
calling the updater with `error="X"` for step 5 does *not* leave step 5
absent from `completed_steps` — the error branch records the error but
removes nothing, so 5 is still present, contradicting the claim's "leaves
step 5 absent ... regardless of whether step 5 was previously
complete". -/
theorem wizard_update_error_step_still_present :
    ∃ st1,
      alGet (wizard_update_onboarding_state "acme" 5 none none (some "X")
          "T1" doneFS5).1 (statePath "acme") = some st1 ∧
      st1.error = some ⟨5, "X"⟩ ∧
      (5 : Int) ∈ st1.completed_steps := by
  refine ⟨_, rfl, rfl, ?_⟩
  decide

/-- C3 (amended): calling the updater with a non-empty `error` message for
step 5 leaves `completed_steps` unchanged (in particular it does not add
step 5, which therefore stays absent if it was absent) and sets
`error = {step: 5, message}`; a subsequent no-error call for step 5 clears
`error` to null and ensures 5 is in `completed_steps`. -/
theorem wizard_update_error_then_success (fs : FS) (brand msg : String)
    (hmsg : msg ≠ "") (rk rv : Option String) (now1 now2 : String)
    (st : OnboardingState) (hload : alGet fs (statePath brand) = some st) :
    ∃ st1,
      alGet (wizard_update_onboarding_state brand 5 none none (some msg)
          now1 fs).1 (statePath brand) = some st1 ∧
      st1.completed_steps = st.completed_steps ∧
      st1.error = some ⟨5, msg⟩ ∧
      ∃ st2,
        alGet (wizard_update_onboarding_state brand 5 rk rv none now2
            (wizard_update_onboarding_state brand 5 none none (some msg)
              now1 fs).1).1 (statePath brand) = some st2 ∧
        st2.error = none ∧
        st2.completed_steps.contains 5 = true := by
  have hT : strTruthy (some msg) = true := by
    simp only [strTruthy, Bool.not_eq_true']
    cases h : msg.isEmpty
    · rfl
    · exact absurd ((String.isEmpty_iff msg).mp h) hmsg
  have hfs1 : (wizard_update_onboarding_state brand 5 none none (some msg)
      now1 fs).1 = alSet fs (statePath brand)
        (errorUpdate st 5 msg now1) := by
    rw [wizard_update_fs_eq brand 5 none none (some msg) now1 fs st hload,
      hT]
    rfl
  have hload1 : alGet ((wizard_update_onboarding_state brand 5 none none
      (some msg) now1 fs).1) (statePath brand)
      = some (errorUpdate st 5 msg now1) := by
    rw [hfs1]
    exact alGet_alSet_self _ _ _
  refine ⟨_, hload1, rfl, rfl, ?_⟩
  have hfs2 : (wizard_update_onboarding_state brand 5 rk rv none now2
      (wizard_update_onboarding_state brand 5 none none (some msg) now1
        fs).1).1
      = alSet ((wizard_update_onboarding_state brand 5 none none (some msg)
          now1 fs).1) (statePath brand)
        (successUpdate (errorUpdate st 5 msg now1) 5 rk rv now2) := by
    rw [wizard_update_fs_eq brand 5 rk rv none now2 _ _ hload1]
    rfl
  rw [hfs2]
  exact ⟨_, alGet_alSet_self _ _ _, rfl,
    successUpdate_contains _ 5 rk rv now2⟩

/-- Witness for the amended C3 at a concrete input. -/
theorem wizard_update_error_then_success_witness :
    ("X" : String) ≠ "" ∧
    ∃ st1,
      alGet (wizard_update_onboarding_state "acme" 5 none none (some "X")
          "T1" sampleFS).1 (statePath "acme") = some st1 ∧
      st1.completed_steps = sampleState.completed_steps ∧
      st1.error = some ⟨5, "X"⟩ ∧
      ∃ st2,
        alGet (wizard_update_onboarding_state "acme" 5 none none none "T2"
            (wizard_update_onboarding_state "acme" 5 none none (some "X")
              "T1" sampleFS).1).1 (statePath "acme") = some st2 ∧
        st2.error = none ∧
        st2.completed_steps.contains 5 = true :=
  ⟨by decide,
    wizard_update_error_then_success sampleFS "acme" "X" (by decide) none
      none "T1" "T2" sampleState rfl⟩

/-- The state document `wizard_execute_onboarding` saves when it resumes
from an existing state `st`: region/industry refreshed from the arguments,
`hours_config` overwritten only when the argument is truthy, templates and
`updated_at` refreshed. -/
def resumedState (brand region industry : String)
    (hc : Option HoursConfig) (st : OnboardingState) (now : String) :
    OnboardingState :=
  { st with
    region := some region
    industry := some industry
    hours_config := if hcTruthy hc then hc else st.hours_config
    templates := some (industryTemplates industry)
    updated_at := now }

/-- Unfolding of `wizard_execute_onboarding` on a resumable state. -/
theorem wizard_execute_eq (brand region industry : String)
    (hc : Option HoursConfig) (now : String) (fs : FS)
    (st : OnboardingState) (l : List DayCfg)
    (hload : alGet fs (statePath brand) = some st)
    (hb : _build_hours_config hc = some l) :
    wizard_execute_onboarding brand region industry hc true now fs
      = some (alSet fs (statePath brand)
            (resumedState brand region industry hc st now),
          { brand := brand
            region := region
            industry := industry
            state_file := statePath brand
            progress := toString (resumedState brand region industry hc st
                now).completed_steps.length ++ "/" ++
              toString (onboardingSteps brand region hc l
                (resumedState brand region industry hc st now).completed_steps
                (resumedState brand region industry hc st
                  now).resources).length ++ " steps completed"
            resources := (resumedState brand region industry hc st
              now).resources
            steps := onboardingSteps brand region hc l
              (resumedState brand region industry hc st now).completed_steps
              (resumedState brand region industry hc st now).resources
            next_step := (onboardingSteps brand region hc l
                (resumedState brand region industry hc st now).completed_steps
                (resumedState brand region industry hc st
                  now).resources).find? (fun s => !s.completed) }) := by
  simp only [wizard_execute_onboarding, hload, hb]
  rfl

/-- A no-error update on an existing state overwrites the state file with
`successUpdate`. -/
theorem wizard_update_fs_eq_success (brand : String) (step : Int)
    (rk rv : Option String) (now : String) (fs : FS)
    (st : OnboardingState) (hload : alGet fs (statePath brand) = some st) :
    (wizard_update_onboarding_state brand step rk rv none now fs).1
      = alSet fs (statePath brand) (successUpdate st step rk rv now) := by
  rw [wizard_update_fs_eq brand step rk rv none now fs st hload]
  rfl

/-- C6: the FAQ materializer unconditionally bootstraps a fresh state for
the brand: after the call the state file still exists at the brand's path
but records no completed steps and no resources, whatever the prior state
held. -/
theorem wizard_generate_resets_state (fs : FS) (brand : String)
    (faqs : List Faq) (now : String) (prior : OnboardingState)
    (hload : alGet fs (statePath brand) = some prior) :
    ∃ ns,
      alGet (wizard_generate_faq_files brand faqs now fs).fs
        (statePath brand) = some ns ∧
      ns.completed_steps = [] ∧ ns.resources = [] :=
  ⟨_, by
      simp only [wizard_generate_faq_files]
      exact alGet_alSet_self _ _ _,
    rfl, rfl⟩

/-- Witness for C6 at a concrete input: a brand whose state records five
completed steps and one resource. -/
theorem wizard_generate_resets_state_witness :
    ∃ ns,
      alGet (wizard_generate_faq_files "acme"
          [{ title := some "What are your hours?" }] "T3" doneFS5).fs
        (statePath "acme") = some ns ∧
      ns.completed_steps = [] ∧ ns.resources = [] :=
  wizard_generate_resets_state doneFS5 "acme"
    [{ title := some "What are your hours?" }] "T3" doneState5 rfl

theorem buildFaqFiles_length (brand : String) :
    ∀ (j : Nat) (faqs : List Faq),
      (buildFaqFiles brand j faqs).length = faqs.length
  | _, [] => rfl
  | j, _ :: rest => by
    simp only [buildFaqFiles, List.length_cons]
    rw [buildFaqFiles_length brand (j + 1) rest]

theorem buildFaqFiles_get? (brand : String) :
    ∀ (faqs : List Faq) (j i : Nat) (faq : Faq), faqs[i]? = some faq →
      (buildFaqFiles brand j faqs)[i]? = some
        (brand ++ "/faq/" ++ pyPad2 (j + i) ++ "-"
            ++ slugify50 (faq.title.getD ("Question " ++ toString (j + i)))
            ++ ".txt",
          faqBody (faq.title.getD ("Question " ++ toString (j + i)))
            (faq.summary.getD "") (faq.content.getD ""))
  | [], _, i, _ => by simp
  | f :: rest, j, 0, faq => by
    intro h
    rw [List.getElem?_cons_zero, Option.some.injEq] at h
    subst h
    simp only [buildFaqFiles, List.getElem?_cons_zero, Nat.add_zero,
      String.append_assoc]
  | f :: rest, j, i + 1, faq => by
    intro h
    rw [List.getElem?_cons_succ] at h
    have ih := buildFaqFiles_get? brand rest (j + 1) i faq h
    rw [show j + 1 + i = j + (i + 1) from by omega] at ih
    simp only [buildFaqFiles, List.getElem?_cons_succ]
    exact ih

/-- C8: the FAQ materializer writes exactly one text file per FAQ under
`<brand>/faq/`; the file at 0-based position `i` has name
`NN-<slug>.txt` with `NN` the zero-padded 1-based index and `<slug>` the
lowercased title with every run of non-alphanumerics collapsed to `-`,
stripped of outer dashes and truncated to 50 characters; its body is
`Title: <title>`, blank line, `Summary: <summary>`, blank line,
`Content:` and the content. -/
theorem wizard_generate_faq_files_layout (brand : String)
    (faqs : List Faq) (now : String) (fs : FS) :
    (wizard_generate_faq_files brand faqs now fs).faqWrites.length
      = faqs.length ∧
    ∀ i faq, faqs[i]? = some faq →
      (wizard_generate_faq_files brand faqs now fs).faqWrites[i]? = some
        (brand ++ "/faq/" ++ pyPad2 (i + 1) ++ "-"
            ++ slugify50 (faq.title.getD ("Question " ++ toString (i + 1)))
            ++ ".txt",
          faqBody (faq.title.getD ("Question " ++ toString (i + 1)))
            (faq.summary.getD "") (faq.content.getD "")) := by
  constructor
  · exact buildFaqFiles_length brand 1 faqs
  · intro i faq h
    have hg := buildFaqFiles_get? brand faqs 1 i faq h
    rw [show (1 : Nat) + i = i + 1 from Nat.add_comm 1 i] at hg
    exact hg

/-- Witness for C8 at a concrete input. -/
theorem wizard_generate_faq_files_layout_witness :
    ([{ title := some "What are your hours?"
        summary := some "Our business hours"
        content := some "9-5" }] : List Faq)[0]?
      = some { title := some "What are your hours?"
               summary := some "Our business hours"
               content := some "9-5" } ∧
    (wizard_generate_faq_files "acme"
        [{ title := some "What are your hours?"
           summary := some "Our business hours"
           content := some "9-5" }] "T1" []).faqWrites[0]?
      = some ("acme/faq/01-what-are-your-hours.txt",
          "Title: What are your hours?\n\nSummary: Our business hours\n\nContent:\n9-5\n") := by
  refine ⟨rfl, ?_⟩
  have h := (wizard_generate_faq_files_layout "acme"
    [{ title := some "What are your hours?"
       summary := some "Our business hours"
       content := some "9-5" }] "T1" []).2 0 _ rfl
  rw [h]
  decide

/-- C4: after the updater records `resource_key="queue_id",
resource_value="q-123"` for step 5, every subsequent plan request returns
step 6 with `default_outbound_queue_id = "q-123"`; and whenever a
prerequisite resource key is absent from `resources`, the corresponding
parameter is filled with the literal placeholder string (`"<from step 1>"`,
`"<from step 4>"`, `"<from step 5>"`, `"<from step 8>"`) instead of being
rejected. -/
theorem wizard_resource_propagation (fs : FS)
    (brand region industry : String) (hc : Option HoursConfig)
    (now1 now2 : String) (st : OnboardingState) (l : List DayCfg)
    (hload : alGet fs (statePath brand) = some st)
    (hb : _build_hours_config hc = some l) :
    (∃ fs2 r,
      wizard_execute_onboarding brand region industry hc true now2
          (wizard_update_onboarding_state brand 5 (some "queue_id")
            (some "q-123") none now1 fs).1 = some (fs2, r) ∧
      ∃ s6, r.steps[5]? = some s6 ∧ s6.step = 6 ∧
        alGet s6.params "default_outbound_queue_id" = some (.s "q-123")) ∧
    (∀ fs' r',
      wizard_execute_onboarding brand region industry hc true now2 fs
          = some (fs', r') →
      (alGet st.resources "instance_id" = none →
        ∃ s3, r'.steps[2]? = some s3 ∧ s3.step = 3 ∧
          alGet s3.params "instance_id" = some (.s "<from step 1>")) ∧
      (alGet st.resources "hours_of_operation_id" = none →
        ∃ s5, r'.steps[4]? = some s5 ∧ s5.step = 5 ∧
          alGet s5.params "hours_of_operation_id"
            = some (.s "<from step 4>")) ∧
      (alGet st.resources "queue_id" = none →
        ∃ s6, r'.steps[5]? = some s6 ∧ s6.step = 6 ∧
          alGet s6.params "default_outbound_queue_id"
            = some (.s "<from step 5>")) ∧
      (alGet st.resources "cases_domain_id" = none →
        ∃ s9, r'.steps[8]? = some s9 ∧ s9.step = 9 ∧
          alGet s9.params "domain_id" = some (.s "<from step 8>"))) := by
  constructor
  · have hfs1 := wizard_update_fs_eq_success brand 5 (some "queue_id")
      (some "q-123") now1 fs st hload
    have hload1 : alGet ((wizard_update_onboarding_state brand 5
        (some "queue_id") (some "q-123") none now1 fs).1) (statePath brand)
        = some (successUpdate st 5 (some "queue_id") (some "q-123")
            now1) := by
      rw [hfs1]
      exact alGet_alSet_self _ _ _
    have hexec := wizard_execute_eq brand region industry hc now2 _
      (successUpdate st 5 (some "queue_id") (some "q-123") now1) l hload1 hb
    refine ⟨_, _, hexec, _, rfl, rfl, ?_⟩
    show some (PVal.s ((alGet (alSet st.resources "queue_id" "q-123")
        "queue_id").getD "<from step 5>")) = some (PVal.s "q-123")
    rw [alGet_alSet_self]
    rfl
  · intro fs' r' hex
    rw [wizard_execute_eq brand region industry hc now2 fs st l hload hb]
      at hex
    simp only [Option.some.injEq, Prod.mk.injEq] at hex
    obtain ⟨hfs', hr'⟩ := hex
    subst hfs'
    subst hr'
    refine ⟨?_, ?_, ?_, ?_⟩ <;> intro hnone <;>
      refine ⟨_, rfl, rfl, ?_⟩
    · show some (PVal.s ((alGet st.resources "instance_id").getD
        "<from step 1>")) = some (PVal.s "<from step 1>")
      rw [hnone]
      rfl
    · show some (PVal.s ((alGet st.resources "hours_of_operation_id").getD
        "<from step 4>")) = some (PVal.s "<from step 4>")
      rw [hnone]
      rfl
    · show some (PVal.s ((alGet st.resources "queue_id").getD
        "<from step 5>")) = some (PVal.s "<from step 5>")
      rw [hnone]
      rfl
    · show some (PVal.s ((alGet st.resources "cases_domain_id").getD
        "<from step 8>")) = some (PVal.s "<from step 8>")
      rw [hnone]
      rfl

/-- Witness for C4 at a concrete input: `sampleState` has `instance_id`
and `hours_of_operation_id` recorded but no `queue_id` and no
`cases_domain_id`. -/
theorem wizard_resource_propagation_witness :
    (∃ fs2 r,
      wizard_execute_onboarding "acme" "us-east-1" "general" none true "T2"
          (wizard_update_onboarding_state "acme" 5 (some "queue_id")
            (some "q-123") none "T1" sampleFS).1 = some (fs2, r) ∧
      ∃ s6, r.steps[5]? = some s6 ∧ s6.step = 6 ∧
        alGet s6.params "default_outbound_queue_id"
          = some (.s "q-123")) ∧
    (∀ fs' r',
      wizard_execute_onboarding "acme" "us-east-1" "general" none true "T2"
          sampleFS = some (fs', r') →
      (alGet sampleState.resources "instance_id" = none →
        ∃ s3, r'.steps[2]? = some s3 ∧ s3.step = 3 ∧
          alGet s3.params "instance_id" = some (.s "<from step 1>")) ∧
      (alGet sampleState.resources "hours_of_operation_id" = none →
        ∃ s5, r'.steps[4]? = some s5 ∧ s5.step = 5 ∧
          alGet s5.params "hours_of_operation_id"
            = some (.s "<from step 4>")) ∧
      (alGet sampleState.resources "queue_id" = none →
        ∃ s6, r'.steps[5]? = some s6 ∧ s6.step = 6 ∧
          alGet s6.params "default_outbound_queue_id"
            = some (.s "<from step 5>")) ∧
      (alGet sampleState.resources "cases_domain_id" = none →
        ∃ s9, r'.steps[8]? = some s9 ∧ s9.step = 9 ∧
          alGet s9.params "domain_id" = some (.s "<from step 8>"))) :=
  wizard_resource_propagation sampleFS "acme" "us-east-1" "general" none
    "T1" "T2" sampleState defaultWeek rfl rfl

/-- C10: step 4's hours-of-operation parameters are computed solely from
the `hours_config` argument of the current call.  First conjunct: a resume
call that omits `hours_config` gets `time_zone = "America/New_York"` and
the default Mon-Fri 09:00-17:00 config — whatever schedule the loaded
state has stored.  Second conjunct: two calls with the same arguments on
any two state files yield identical step-4 parameters.  Third conjunct: a
truthy `hours_config` argument is persisted into the saved state (stored,
but never read back by the plan builder). -/
theorem wizard_hours_config_from_argument_only (fs fsB : FS)
    (brand region industry : String) (hc : Option HoursConfig)
    (now : String) (st stB : OnboardingState) (l : List DayCfg)
    (hload : alGet fs (statePath brand) = some st)
    (hloadB : alGet fsB (statePath brand) = some stB)
    (hb : _build_hours_config hc = some l) :
    (∃ fs2 r,
      wizard_execute_onboarding brand region industry none true now fs
        = some (fs2, r) ∧
      ∃ s4, r.steps[3]? = some s4 ∧ s4.step = 4 ∧
        alGet s4.params "time_zone" = some (.s "America/New_York") ∧
        alGet s4.params "config" = some (.cfg defaultWeek)) ∧
    (∀ fs2 r fs2' r',
      wizard_execute_onboarding brand region industry hc true now fs
          = some (fs2, r) →
      wizard_execute_onboarding brand region industry hc true now fsB
          = some (fs2', r') →
      r.steps[3]?.map StepD.params = r'.steps[3]?.map StepD.params) ∧
    (hcTruthy hc = true →
      ∃ fs2 r,
        wizard_execute_onboarding brand region industry hc true now fs
          = some (fs2, r) ∧
        ∃ st', alGet fs2 (statePath brand) = some st' ∧
          st'.hours_config = hc) := by
  refine ⟨?_, ?_, ?_⟩
  · have hexec := wizard_execute_eq brand region industry none now fs st
      defaultWeek hload rfl
    exact ⟨_, _, hexec, _, rfl, rfl, rfl, rfl⟩
  · intro fs2 r fs2' r' hex hex'
    rw [wizard_execute_eq brand region industry hc now fs st l hload hb]
      at hex
    rw [wizard_execute_eq brand region industry hc now fsB stB l hloadB hb]
      at hex'
    simp only [Option.some.injEq, Prod.mk.injEq] at hex hex'
    obtain ⟨-, hr⟩ := hex
    obtain ⟨-, hr'⟩ := hex'
    subst hr
    subst hr'
    rfl
  · intro hT
    have hexec := wizard_execute_eq brand region industry hc now fs st l
      hload hb
    refine ⟨_, _, hexec, _, alGet_alSet_self _ _ _, ?_⟩
    simp [resumedState, hT]

/-- A state file that has a custom hours configuration persisted in its
`hours_config` field. -/
def hoursStoredState : OnboardingState :=
  { brand := "acme"
    started_at := "T0"
    updated_at := "T0"
    current_phase := 1
    current_step := 4
    completed_steps := [1, 2, 3, 4]
    resources := []
    error := none
    hours_config := some
      { timezone := some "Europe/Madrid"
        schedule := some [{ day := some "monday"
                            start := some "10:00"
                            stop := some "14:00" }] } }

/-- A file system holding `hoursStoredState` for brand `acme`. -/
def hoursStoredFS : FS := [(statePath "acme", hoursStoredState)]

/-- Witness for C10 at a concrete input: the loaded state stores a custom
schedule, yet a call omitting `hours_config` yields the defaults. -/
theorem wizard_hours_config_from_argument_only_witness :
    (∃ fs2 r,
      wizard_execute_onboarding "acme" "us-east-1" "general" none true "T2"
          hoursStoredFS = some (fs2, r) ∧
      ∃ s4, r.steps[3]? = some s4 ∧ s4.step = 4 ∧
        alGet s4.params "time_zone" = some (.s "America/New_York") ∧
        alGet s4.params "config" = some (.cfg defaultWeek)) ∧
    (∀ fs2 r fs2' r',
      wizard_execute_onboarding "acme" "us-east-1" "general"
          (some { timezone := some "UTC" }) true "T2" hoursStoredFS
          = some (fs2, r) →
      wizard_execute_onboarding "acme" "us-east-1" "general"
          (some { timezone := some "UTC" }) true "T2" sampleFS
          = some (fs2', r') →
      r.steps[3]?.map StepD.params = r'.steps[3]?.map StepD.params) ∧
    (hcTruthy (some { timezone := some "UTC" }) = true →
      ∃ fs2 r,
        wizard_execute_onboarding "acme" "us-east-1" "general"
            (some { timezone := some "UTC" }) true "T2" hoursStoredFS
          = some (fs2, r) ∧
        ∃ st', alGet fs2 (statePath "acme") = some st' ∧
          st'.hours_config = some { timezone := some "UTC" }) :=
  wizard_hours_config_from_argument_only hoursStoredFS sampleFS "acme"
    "us-east-1" "general" (some { timezone := some "UTC" }) "T2"
    hoursStoredState sampleState defaultWeek rfl rfl rfl

/-- The count-at-most-one hypothesis of the idempotency theorem is an
invariant of the system's own writers: a successful update preserves it
(and every state the system creates starts with `completed_steps = []`,
where every count is `0`). -/
theorem successUpdate_count_le_one (st : OnboardingState) (step s : Int)
    (rk rv : Option String) (now : String)
    (h : st.completed_steps.count s ≤ 1) :
    (successUpdate st step rk rv now).completed_steps.count s ≤ 1 := by
  simp only [successUpdate]
  by_cases hm : step ∈ st.completed_steps
  · simp only [hm, List.elem_iff.mpr hm, if_true]
    exact h
  · have hm' : st.completed_steps.contains step = false := by
      cases hh : st.completed_steps.contains step
      · rfl
      · exact absurd (List.elem_iff.mp hh) hm
    simp only [hm', Bool.false_eq_true, if_false, List.count_append]
    by_cases hs : s = step
    · subst hs
      rw [List.count_eq_zero.mpr hm, List.count_singleton_self]
    · have : List.count s [step] = 0 :=
        List.count_eq_zero.mpr (by simp [hs])
      rw [this]
      omega
